import Mathlib

/-!
# Verification of `track-work` (src/main.rs)

A shallow embedding of the work-time tracker.  Machine types are modelled
with `Nat`/`Int` (all arithmetic in the source stays far from overflow on
the reachable inputs); Rust strings are modelled as `List Char`; the CSV
data file is modelled at the decoded-record level; `OffsetDateTime` of the
`time` crate is modelled structurally with the fields that the fixed
timestamp format `%F %T %z` reads and writes, plus a sub-second field.
Wall-clock time (`OffsetDateTime::now_local()`) is passed explicitly as a
parameter.  A Rust panic is modelled as `Option.none`.
-/

namespace TrackWork

/-- Model of `time::OffsetDateTime` restricted to the fields the program
manipulates: calendar date, time of day with sub-second nanoseconds, and a
UTC offset in minutes (the `%z` format reads and writes whole minutes). -/
structure ODT where
  year : Int
  month : Nat
  day : Nat
  hour : Nat
  minute : Nat
  second : Nat
  nanos : Nat
  offMin : Int
deriving DecidableEq, Repr

/-- Model of `time::Date` as the calendar date (`OffsetDateTime::date()`). -/
structure Date where
  year : Int
  month : Nat
  day : Nat
deriving DecidableEq, Repr

/-- `OffsetDateTime::date()`: the stored (local) calendar date. -/
def ODT.date (t : ODT) : Date := ⟨t.year, t.month, t.day⟩

/-- Gregorian leap-year test, as used by `time::Date`. -/
def isLeap (y : Int) : Prop := (y % 4 = 0 ∧ y % 100 ≠ 0) ∨ y % 400 = 0

instance (y : Int) : Decidable (isLeap y) := by unfold isLeap; infer_instance

/-- Days in a month of a given year, as validated by `time::Date`. -/
def daysInMonth (y : Int) (m : Nat) : Nat :=
  if m = 2 then (if isLeap y then 29 else 28)
  else if m = 4 ∨ m = 6 ∨ m = 9 ∨ m = 11 then 30
  else 31

/-- Days since 1970-01-01 of a calendar date (Gregorian, proleptic); used
only to give `OffsetDateTime` subtraction its instant semantics. -/
def daysFromCivil (y : Int) (m d : Nat) : Int :=
  let y' : Int := if m ≤ 2 then y - 1 else y
  let era : Int := (if 0 ≤ y' then y' else y' - 399) / 400
  let yoe : Int := y' - era * 400
  let mp : Int := (Int.ofNat m + 9) % 12
  let doy : Int := (153 * mp + 2) / 5 + Int.ofNat d - 1
  let doe : Int := yoe * 365 + yoe / 4 - yoe / 100 + doy
  era * 146097 + doe - 719468

/-- The instant an `ODT` denotes, in nanoseconds since the epoch (the
`time` crate's subtraction of two `OffsetDateTime`s measures instants). -/
def instantNs (t : ODT) : Int :=
  ((daysFromCivil t.year t.month t.day) * 86400
    + Int.ofNat (t.hour * 3600 + t.minute * 60 + t.second)
    - t.offMin * 60) * 1000000000 + Int.ofNat t.nanos

/-- `end - start` on `OffsetDateTime`s: a `time::Duration`, modelled in
nanoseconds. -/
def sub (a b : ODT) : Int := instantNs a - instantNs b

/-! ## The fixed timestamp format `%F %T %z`

`%F %T %z` is `YYYY-MM-DD HH:MM:SS ±HHMM`.  Formatting writes each numeric
component zero-padded and drops the sub-second part; parsing reads the
fixed-width components back and validates them the way `time` validates a
`Date` and `Time` when assembling the result. -/

/-- Two-digit zero-padded decimal. -/
def pad2 (n : Nat) : List Char := [Nat.digitChar (n / 10), Nat.digitChar (n % 10)]

/-- Four-digit zero-padded decimal. -/
def pad4 (n : Nat) : List Char := pad2 (n / 100) ++ pad2 (n % 100)

/-- The sign character `%z` writes for a UTC offset. -/
def signChar (off : Int) : Char := if off < 0 then '-' else '+'

/-- `format("%F %T %z")` of the model timestamp. -/
def formatODT (t : ODT) : List Char :=
  pad4 t.year.toNat ++ ['-'] ++ pad2 t.month ++ ['-'] ++ pad2 t.day ++ [' '] ++
  pad2 t.hour ++ [':'] ++ pad2 t.minute ++ [':'] ++ pad2 t.second ++ [' '] ++
  [signChar t.offMin] ++ pad2 (t.offMin.natAbs / 60) ++ pad2 (t.offMin.natAbs % 60)

/-- One decimal digit, or `none` when the character is not a digit. -/
def digit? (c : Char) : Option Nat :=
  if c.isDigit then some (c.toNat - 48) else none

/-- Consume two decimal digits. -/
def parse2 : List Char → Option (Nat × List Char)
  | c1 :: c2 :: rest =>
    match digit? c1, digit? c2 with
    | some d1, some d2 => some (d1 * 10 + d2, rest)
    | _, _ => none
  | _ => none

/-- Consume four decimal digits. -/
def parse4 (cs : List Char) : Option (Nat × List Char) := do
  let (hi, r) ← parse2 cs
  let (lo, r) ← parse2 r
  pure (hi * 100 + lo, r)

/-- Consume one expected literal character. -/
def expectChar (c : Char) : List Char → Option (List Char)
  | x :: rest => if x = c then some rest else none
  | [] => none

/-- Consume the `%z` sign. -/
def parseSign : List Char → Option (Int × List Char)
  | '+' :: rest => some (1, rest)
  | '-' :: rest => some (-1, rest)
  | _ => none

/-- Consume `YYYY-MM-DD` (the `%F` part). -/
def parseYMD (cs : List Char) : Option ((Nat × Nat × Nat) × List Char) := do
  let py ← parse4 cs
  let r1 ← expectChar '-' py.2
  let pmo ← parse2 r1
  let r2 ← expectChar '-' pmo.2
  let pd ← parse2 r2
  pure ((py.1, pmo.1, pd.1), pd.2)

/-- Consume `HH:MM:SS` (the `%T` part). -/
def parseHMS (cs : List Char) : Option ((Nat × Nat × Nat) × List Char) := do
  let ph ← parse2 cs
  let r1 ← expectChar ':' ph.2
  let pmi ← parse2 r1
  let r2 ← expectChar ':' pmi.2
  let ps ← parse2 r2
  pure ((ph.1, pmi.1, ps.1), ps.2)

/-- Consume `±HHMM` (the `%z` part), yielding the offset in minutes. -/
def parseOff (cs : List Char) : Option (Int × List Char) := do
  let psg ← parseSign cs
  let poh ← parse2 psg.2
  let pom ← parse2 poh.2
  pure (psg.1 * Int.ofNat (poh.1 * 60 + pom.1), pom.2)

/-- `OffsetDateTime::parse(s, "%F %T %z")`: reads the fixed-width
components and validates the calendar date and time of day the way `time`
validates a `Date` and `Time`; the sub-second part of the result is zero. -/
def parseODT (cs : List Char) : Option ODT := do
  let pymd ← parseYMD cs
  let r1 ← expectChar ' ' pymd.2
  let phms ← parseHMS r1
  let r2 ← expectChar ' ' phms.2
  let poff ← parseOff r2
  if 1 ≤ pymd.1.2.1 ∧ pymd.1.2.1 ≤ 12 ∧ 1 ≤ pymd.1.2.2 ∧
      pymd.1.2.2 ≤ daysInMonth (Int.ofNat pymd.1.1) pymd.1.2.1 ∧
      phms.1.1 < 24 ∧ phms.1.2.1 < 60 ∧ phms.1.2.2 < 60 ∧ poff.2 = [] then
    some { year := Int.ofNat pymd.1.1, month := pymd.1.2.1, day := pymd.1.2.2,
           hour := phms.1.1, minute := phms.1.2.1, second := phms.1.2.2,
           nanos := 0, offMin := poff.1 }
  else
    none

/-- A timestamp the fixed format can represent faithfully (what
`now_local()` produces, up to sub-second truncation). -/
def ValidODT (t : ODT) : Prop :=
  0 ≤ t.year ∧ t.year < 10000 ∧ 1 ≤ t.month ∧ t.month ≤ 12 ∧
  1 ≤ t.day ∧ t.day ≤ daysInMonth t.year t.month ∧
  t.hour < 24 ∧ t.minute < 60 ∧ t.second < 60 ∧ t.offMin.natAbs < 1440

instance (t : ODT) : Decidable (ValidODT t) := by unfold ValidODT; infer_instance

/-- Dropping the sub-second part, which the format cannot store. -/
def truncODT (t : ODT) : ODT := { t with nanos := 0 }

/-! ## The record store

A Rust `String` is a `List Char`.  A stored CSV data row is modelled as
the `csv` reader yields it after decoding: `none` is a row the CSV layer
fails to decode (an `Err` record, dropped by `filter_map(|d| d.ok())`),
`some fields` a decoded record.  The file itself is `none` when the path
does not exist (`path.exists()` false).  The header row is handled by
`has_headers(true)` on read and rewritten by `write`, so only data rows
are modelled. -/

abbrev Field := List Char

abbrev RawRow := Option (List Field)

abbrev FileSt := Option (List RawRow)

/-- The `Tracker` record of one work session.  The Rust field `end` is a
Lean keyword and is called `endT` here. -/
structure Tracker where
  start : ODT
  endT : Option ODT
  objective : Field
deriving DecidableEq, Repr

/-- `Tracker::start(objective)`, with `now_local()` passed explicitly. -/
def Tracker.startNew (now : ODT) (objective : Field) : Tracker :=
  { start := now, endT := none, objective := objective }

/-- `impl From<StringRecord> for Tracker`.  The two `expect` calls on the
start field are panics, modelled as `none`; a missing or unparseable end
field yields `end = None`; a missing objective yields `""`. -/
def Tracker.fromRow (rec : List Field) : Option Tracker :=
  match rec.get? 0 with
  | none => none
  | some s0 =>
    match parseODT s0 with
    | none => none
    | some st =>
      some { start := st, endT := (rec.get? 1).bind parseODT,
             objective := (rec.get? 2).getD [] }

/-- The data row `write` emits for one entry: formatted start, formatted
end or the empty field, and the objective. -/
def rowOf (entry : Tracker) : List Field :=
  [formatODT entry.start, (entry.endT.map formatODT).getD [], entry.objective]

/-- `write(path, data)`: the data rows of the rewritten file. -/
def write (data : List Tracker) : List RawRow :=
  data.map (fun entry => some (rowOf entry))

/-- `.map(Tracker::from).collect()` over the decoded records: any panic
aborts the whole load. -/
def collectRows : List (List Field) → Option (List Tracker)
  | [] => some []
  | rec :: rest =>
    match Tracker.fromRow rec with
    | none => none
    | some t => (collectRows rest).map (t :: ·)

/-- `read(path)`: an absent file is an empty sequence; otherwise the CSV
layer's `Err` records are dropped and the decoded records are converted,
`none` modelling the panic inside `Tracker::from`. -/
def read (fs : FileSt) : Option (List Tracker) :=
  match fs with
  | none => some []
  | some rows => collectRows (rows.filterMap id)

/-! ## The session engine -/

/-- The pure core of `start`: the check against the last entry and the
sequence that would be written. -/
def startData (l : List Tracker) (now : ODT) (objective : Field) :
    Except String (List Tracker) :=
  match l.getLast? with
  | some entry =>
    match entry.endT with
    | none => Except.error "Last entry has no end. Please first correct this error"
    | some _ => Except.ok (l ++ [Tracker.startNew now objective])
  | none => Except.ok (l ++ [Tracker.startNew now objective])

/-- The pure core of `stop`: `last_mut` is mutated only when the last
entry is open; an empty sequence falls through to `write` unchanged. -/
def stopData (l : List Tracker) (now : ODT) (objective : Field) :
    Except String (List Tracker) :=
  match l.getLast? with
  | none => Except.ok l
  | some entry =>
    match entry.endT with
    | some _ => Except.error "Last entry already finished. There was no work to track!"
    | none =>
      Except.ok (l.dropLast ++ [{ entry with endT := some now, objective := objective }])

/-- `start(path, objective, _)` on the stored file: `none` is a panic in
`read`; an error returns before `write`, leaving the file as it was; on
success the whole file is rewritten. -/
def startFile (fs : FileSt) (now : ODT) (objective : Field) :
    Option (Except String Unit × FileSt) :=
  match read fs with
  | none => none
  | some l =>
    match startData l now objective with
    | Except.error msg => some (Except.error msg, fs)
    | Except.ok l2 => some (Except.ok (), some (write l2))

/-- `stop(path, objective, _)` on the stored file, like `startFile`. -/
def stopFile (fs : FileSt) (now : ODT) (objective : Field) :
    Option (Except String Unit × FileSt) :=
  match read fs with
  | none => none
  | some l =>
    match stopData l now objective with
    | Except.error msg => some (Except.error msg, fs)
    | Except.ok l2 => some (Except.ok (), some (write l2))

/-! ## The report engine -/

/-- `u8::checked_sub`. -/
def checkedSub (a b : Nat) : Option Nat :=
  if b ≤ a then some (a - b) else none

/-- The target (month, year) `get_month_data` computes from the current
month and year and the `delta` argument, mirroring its `overflow` /
`checked_sub` arithmetic. -/
def monthTarget (curMonth : Nat) (curYear : Int) (delta : Nat) : Nat × Int :=
  let overflow := delta / 12
  let d := delta % 12
  match checkedSub curMonth d with
  | some m => (m, curYear - Int.ofNat overflow)
  | none => (12 - (d - curMonth), curYear - Int.ofNat (overflow + 1))

/-- `get_month_data(data, delta)`, with `now_local()` passed explicitly:
keeps the sessions whose start month and year equal the computed target. -/
def get_month_data (data : List Tracker) (current : ODT) (delta : Nat) :
    List Tracker :=
  let t := monthTarget current.month current.year delta
  data.filter (fun m => m.start.month == t.1 && m.start.year == t.2)

/-- `map.entry(k).or_insert(0); *dur += v` on the association-list model
of the `HashMap`. -/
def addTo : List (Date × Int) → Date → Int → List (Date × Int)
  | [], k, v => [(k, v)]
  | (k', v') :: rest, k, v =>
    if k' = k then (k', v' + v) :: rest else (k', v') :: addTo rest k v

/-- `entry.end.unwrap_or_else(now_local) - entry.start`: the duration one
session contributes. -/
def sessionDur (now : ODT) (entry : Tracker) : Int :=
  sub (entry.endT.getD now) entry.start

/-- `compress(data)`, with `now_local()` passed explicitly: sums
`(end or now) - start` per start date.  The `HashMap` iteration order is
unspecified in the source; the association list fixes first-insertion
order, and only order-insensitive facts are proved about it. -/
def compress (data : List Tracker) (now : ODT) : List (Date × Int) :=
  data.foldl (fun m entry => addTo m entry.start.date (sessionDur now entry)) []

/-- The store invariant: every session other than the last is closed
(equivalently: at most one open session, and it can only be the last). -/
def Inv (l : List Tracker) : Prop := ∀ t ∈ l.dropLast, t.endT ≠ none

instance (l : List Tracker) : Decidable (Inv l) := by unfold Inv; infer_instance

/-- The stored sequence after an operation: the new sequence on success,
the untouched old one on error. -/
def afterOp (r : Except String (List Tracker)) (old : List Tracker) : List Tracker :=
  match r with
  | Except.ok l2 => l2
  | Except.error _ => old

/-- Validity of the optional end timestamp. -/
def validEnd : Option ODT → Prop
  | none => True
  | some e => ValidODT e

instance : (o : Option ODT) → Decidable (validEnd o)
  | none => Decidable.isTrue trivial
  | some e => inferInstanceAs (Decidable (ValidODT e))

/-- A session whose timestamps the fixed format represents faithfully. -/
def ValidTracker (t : Tracker) : Prop := ValidODT t.start ∧ validEnd t.endT

instance (t : Tracker) : Decidable (ValidTracker t) := by
  unfold ValidTracker; infer_instance

/-- Sub-second truncation on a whole session, the effect of one store
round trip. -/
def truncTracker (t : Tracker) : Tracker :=
  { t with start := truncODT t.start, endT := t.endT.map truncODT }

/-! ## Sample values used by witnesses -/

/-- A sample wall-clock instant: 2021-01-15 12:34:56.000000789 +0200. -/
def tJan : ODT := ⟨2021, 1, 15, 12, 34, 56, 789, 120⟩

/-- A sample instant in December 2019, offset -0130. -/
def tDec : ODT := ⟨2019, 12, 10, 9, 0, 0, 0, -90⟩

/-- A closed sample session. -/
def trClosed : Tracker := ⟨tDec, some (truncODT tJan), ['o']⟩

/-- An open sample session. -/
def trOpen : Tracker := ⟨tDec, none, []⟩

/-! ## Round trip of the timestamp format -/

lemma digit?_digitChar : ∀ k < 10, digit? (Nat.digitChar k) = some k := by decide

lemma parse2_pad2 (n : Nat) (h : n < 100) (rest : List Char) :
    parse2 (pad2 n ++ rest) = some (n, rest) := by
  have h1 : n / 10 < 10 := by omega
  have h2 : n % 10 < 10 := by omega
  simp [pad2, parse2, digit?_digitChar _ h1, digit?_digitChar _ h2]
  omega

lemma parse4_pad4 (n : Nat) (h : n < 10000) (rest : List Char) :
    parse4 (pad4 n ++ rest) = some (n, rest) := by
  have h1 : n / 100 < 100 := by omega
  have h2 : n % 100 < 100 := by omega
  simp [pad4, parse4, List.append_assoc, parse2_pad2 _ h1, parse2_pad2 _ h2]
  omega

lemma expectChar_cons (c : Char) (rest : List Char) :
    expectChar c (c :: rest) = some rest := by
  simp [expectChar]

lemma parseYMD_pads (y mo d : Nat) (hy : y < 10000) (hmo : mo < 100) (hd : d < 100)
    (rest : List Char) :
    parseYMD (pad4 y ++ '-' :: (pad2 mo ++ '-' :: (pad2 d ++ rest))) =
      some ((y, mo, d), rest) := by
  simp [parseYMD, parse4_pad4 _ hy, expectChar_cons, parse2_pad2 _ hmo, parse2_pad2 _ hd]

lemma parseHMS_pads (h mi s : Nat) (hh : h < 100) (hmi : mi < 100) (hs : s < 100)
    (rest : List Char) :
    parseHMS (pad2 h ++ ':' :: (pad2 mi ++ ':' :: (pad2 s ++ rest))) =
      some ((h, mi, s), rest) := by
  simp [parseHMS, parse2_pad2 _ hh, expectChar_cons, parse2_pad2 _ hmi, parse2_pad2 _ hs]

lemma parseSign_pos (rest : List Char) : parseSign ('+' :: rest) = some (1, rest) := rfl

lemma parseSign_neg (rest : List Char) : parseSign ('-' :: rest) = some (-1, rest) := rfl

lemma daysInMonth_le (y : Int) (m : Nat) : daysInMonth y m ≤ 31 := by
  unfold daysInMonth
  split_ifs <;> omega

lemma parse2_pad2_done (n : Nat) (h : n < 100) : parse2 (pad2 n) = some (n, []) := by
  have := parse2_pad2 n h []
  simpa using this

lemma parseOff_done (off : Int) (q r : Nat) (hq : q < 100) (hr : r < 100)
    (he : q * 60 + r = off.natAbs) :
    parseOff (signChar off :: (pad2 q ++ pad2 r)) = some (off, []) := by
  rcases lt_or_le off 0 with hneg | hpos
  · have hsc : signChar off = '-' := by simp [signChar, hneg]
    rw [hsc]
    simp [parseOff, parseSign_neg, parse2_pad2 q hq, parse2_pad2_done r hr]
    omega
  · have hsc : signChar off = '+' := by simp [signChar, not_lt.mpr hpos]
    rw [hsc]
    simp [parseOff, parseSign_pos, parse2_pad2 q hq, parse2_pad2_done r hr]
    omega

/-- Parsing a formatted valid timestamp recovers it, with the sub-second
part truncated to zero. -/
theorem parseODT_formatODT (t : ODT) (h : ValidODT t) :
    parseODT (formatODT t) = some (truncODT t) := by
  obtain ⟨hy0, hy, hmo1, hmo, hd1, hd, hh, hmi, hs, hoff⟩ := h
  have hyn : t.year.toNat < 10000 := by omega
  have hd100 : t.day < 100 := by
    have := daysInMonth_le t.year t.month
    omega
  have hfmt : formatODT t =
      pad4 t.year.toNat ++ '-' :: (pad2 t.month ++ '-' :: (pad2 t.day ++
        ' ' :: (pad2 t.hour ++ ':' :: (pad2 t.minute ++ ':' :: (pad2 t.second ++
        ' ' :: (signChar t.offMin :: (pad2 (t.offMin.natAbs / 60) ++
          pad2 (t.offMin.natAbs % 60)))))))) := by
    simp [formatODT]
  rw [hfmt]
  simp [parseODT,
    parseYMD_pads t.year.toNat t.month t.day hyn (by omega) hd100,
    expectChar_cons,
    parseHMS_pads t.hour t.minute t.second (by omega) (by omega) (by omega),
    parseOff_done t.offMin (t.offMin.natAbs / 60) (t.offMin.natAbs % 60)
      (by omega) (by omega) (by omega),
    Int.toNat_of_nonneg hy0,
    hmo1, hmo, hd1, hd, hh, hmi, hs, truncODT]

/-! ## Round trip of whole rows and stores -/

lemma parseODT_nil : parseODT [] = none := rfl

lemma fromRow_rowOf (t : Tracker) (h : ValidTracker t) :
    Tracker.fromRow (rowOf t) = some (truncTracker t) := by
  obtain ⟨hs, he⟩ := h
  cases hend : t.endT with
  | none =>
    simp [Tracker.fromRow, rowOf, hend, parseODT_formatODT t.start hs,
      parseODT_nil, truncTracker]
  | some e =>
    have he' : ValidODT e := by
      rw [hend] at he
      exact he
    simp [Tracker.fromRow, rowOf, hend, parseODT_formatODT t.start hs,
      parseODT_formatODT e he', truncTracker]

lemma collect_write (l : List Tracker) (h : ∀ t ∈ l, ValidTracker t) :
    collectRows (l.map rowOf) = some (l.map truncTracker) := by
  induction l with
  | nil => rfl
  | cons a as ih =>
    simp only [List.map_cons, collectRows, fromRow_rowOf a (h a (by simp))]
    rw [ih (fun t ht => h t (by simp [ht]))]
    rfl

lemma filterMap_write (l : List Tracker) : (write l).filterMap id = l.map rowOf := by
  induction l with
  | nil => rfl
  | cons a as ih => simp only [write, List.map_cons, List.filterMap_cons, id] at ih ⊢; rw [ih]

/-! ## Lemmas about loading with panics and skips -/

lemma collectRows_panic (xs ys : List (List Field)) (rec : List Field)
    (h : Tracker.fromRow rec = none) :
    collectRows (xs ++ rec :: ys) = none := by
  induction xs with
  | nil => simp [collectRows, h]
  | cons a as ih =>
    simp only [List.cons_append, collectRows]
    cases Tracker.fromRow a with
    | none => rfl
    | some t => simp [List.append_eq, ih]

lemma collectRows_total (recs : List (List Field))
    (h : ∀ rec ∈ recs, (Tracker.fromRow rec).isSome) :
    collectRows recs = some (recs.filterMap Tracker.fromRow) := by
  induction recs with
  | nil => rfl
  | cons a as ih =>
    obtain ⟨t, ht⟩ := Option.isSome_iff_exists.mp (h a (by simp))
    simp only [collectRows, ht, List.filterMap_cons]
    rw [ih (fun rec hr => h rec (by simp [hr]))]
    rfl

/-! ## Decomposition of the last element -/

lemma getLast?_decomp {l : List Tracker} {e : Tracker} (h : l.getLast? = some e) :
    l = l.dropLast ++ [e] := by
  obtain ⟨ys, rfl⟩ := List.getLast?_eq_some_iff.mp h
  rw [List.dropLast_concat]

/-! # The claims -/

/-- Claim C9: for every path that does not correspond to an existing
file, `read` returns an empty sequence of sessions and no error. -/
theorem c9_load_missing_file : read none = some ([] : List Tracker) := rfl

/-- Claim C1 counterexample: on a store whose session sequence is empty,
`stop` does NOT fail with an error: both on an absent file and on a file
with no decodable session row it returns success, and it rewrites the
file (creating it in the first case), contradicting the claim that it
fails with an InvalidTransition error and leaves the file unchanged. -/
theorem c1_counterexample :
    stopFile none tJan [] = some (Except.ok (), some []) ∧
    stopFile (some [none]) tJan [] = some (Except.ok (), some []) := ⟨rfl, rfl⟩

/-- Claim C1 as amended: on every store whose session sequence is empty,
`stop` succeeds (no "nothing to stop" error is raised) and rewrites the
stored file to one with a header and no session rows; the
InvalidTransition error of `stop` occurs only when the last session is
already closed. -/
theorem c1_amended (fs : FileSt) (now : ODT) (obj : Field)
    (h : read fs = some []) :
    stopFile fs now obj = some (Except.ok (), some []) := by
  simp [stopFile, h, stopData, write]

/-- Witness for `c1_amended` at a file holding one CSV-undecodable row. -/
theorem c1_amended_witness :
    read (some [none]) = some [] ∧
    stopFile (some [none]) tJan ['x'] = some (Except.ok (), some []) :=
  ⟨rfl, c1_amended (some [none]) tJan ['x'] rfl⟩

/-- Claim C2 (code bug, evaluation): with the current month January 2021
and delta = 13, `get_month_data` computes target month 0 — a month no
session can have — so a session of December 2019 (= December of Y-2) is
dropped instead of kept: the month filter does not roll over correctly. -/
theorem c2_month_filter_eval :
    monthTarget 1 2021 13 = (0, 2020) ∧
    trOpen.start.year = 2019 ∧ trOpen.start.month = 12 ∧
    tJan.year = 2021 ∧ tJan.month = 1 ∧
    get_month_data [trOpen] tJan 13 = [] := by decide

/-- Claim C3: saving any sequence of valid sessions and loading it back
reproduces the same (start, end, objective) triples up to sub-second
truncation; and an open session serializes its end as the empty field. -/
theorem c3_roundtrip :
    (∀ l : List Tracker, (∀ t ∈ l, ValidTracker t) →
        read (some (write l)) = some (l.map truncTracker)) ∧
    (∀ t : Tracker, t.endT = none → (rowOf t).get? 1 = some []) := by
  constructor
  · intro l h
    simp only [read, filterMap_write]
    exact collect_write l h
  · intro t h
    simp [rowOf, h]

/-- Witness for `c3_roundtrip` on a closed and an open sample session. -/
theorem c3_roundtrip_witness :
    (∀ t ∈ [trClosed, trOpen], ValidTracker t) ∧
    read (some (write [trClosed, trOpen])) =
      some ([trClosed, trOpen].map truncTracker) ∧
    trOpen.endT = none ∧ (rowOf trOpen).get? 1 = some [] :=
  ⟨by decide, c3_roundtrip.1 [trClosed, trOpen] (by decide), rfl,
    c3_roundtrip.2 trOpen rfl⟩

/-- Claim C4 counterexample: a decoded row whose start field does not
parse as a timestamp is NOT silently skipped: loading the file aborts
(the `expect` panics), instead of returning the sequence of well-formed
rows (here `[]`). -/
theorem c4_counterexample :
    read (some [some [['x'], [], []]]) = none ∧
    read (some [some [['x'], [], []]]) ≠ some [] := by decide

/-- Claim C4 as amended: rows the CSV layer fails to decode are silently
skipped, but a decoded row whose start field fails timestamp parsing
aborts the whole load (a panic, not a skip); when every decoded row's
conversion succeeds (a bad end field merely loads as `end = absent`),
`read` returns one session per decoded row, in order, with no error. -/
theorem c4_amended :
    (∀ rows : List RawRow, read (some (none :: rows)) = read (some rows)) ∧
    (∀ (rows1 rows2 : List RawRow) (s0 : Field) (rest : List Field),
        parseODT s0 = none →
        read (some (rows1 ++ some (s0 :: rest) :: rows2)) = none) ∧
    (∀ rows : List RawRow,
        (∀ rec ∈ rows.filterMap id, (Tracker.fromRow rec).isSome) →
        read (some rows) = some ((rows.filterMap id).filterMap Tracker.fromRow)) := by
  refine ⟨fun rows => by simp [read], fun rows1 rows2 s0 rest hp => ?_, fun rows h => ?_⟩
  · have hrec : Tracker.fromRow (s0 :: rest) = none := by
      simp [Tracker.fromRow, hp]
    simp only [read, List.filterMap_append, List.filterMap_cons, id]
    exact collectRows_panic _ _ _ hrec
  · simp only [read]
    exact collectRows_total _ h

/-- Witness for `c4_amended`: a skipped CSV-error row, an aborting row
with unparseable start, and a fully-loaded well-formed store. -/
theorem c4_amended_witness :
    read (some [none, some [formatODT tDec, [], []]]) =
      read (some [some [formatODT tDec, [], []]]) ∧
    read (some [some (['x'] :: [])]) = none ∧
    (∀ rec ∈ ([some [formatODT tDec, [], []]] : List RawRow).filterMap id,
        (Tracker.fromRow rec).isSome) ∧
    read (some [some [formatODT tDec, [], []]]) =
      some (([some [formatODT tDec, [], []]] : List RawRow).filterMap id
        |>.filterMap Tracker.fromRow) :=
  ⟨c4_amended.1 [some [formatODT tDec, [], []]],
    c4_amended.2.1 [] [] ['x'] [] (by decide),
    by decide,
    c4_amended.2.2 [some [formatODT tDec, [], []]] (by decide)⟩

/-- Claim C5: `start` on a store whose last session is open fails with
the "already tracking" InvalidTransition error and leaves the stored
file unchanged; on an empty store or one whose last session is closed it
appends exactly one new open session and persists. -/
theorem c5_begin :
    (∀ (fs : FileSt) (l : List Tracker) (e : Tracker) (now : ODT) (obj : Field),
        read fs = some l → l.getLast? = some e → e.endT = none →
        startFile fs now obj =
          some (Except.error "Last entry has no end. Please first correct this error", fs)) ∧
    (∀ (fs : FileSt) (l : List Tracker) (now : ODT) (obj : Field),
        read fs = some l →
        (l = [] ∨ ∃ e, l.getLast? = some e ∧ e.endT ≠ none) →
        startFile fs now obj =
          some (Except.ok (), some (write (l ++ [Tracker.startNew now obj])))) := by
  constructor
  · intro fs l e now obj hr hl he
    simp [startFile, hr, startData, hl, he]
  · intro fs l now obj hr hcase
    rcases hcase with rfl | ⟨e, hl, he⟩
    · simp [startFile, hr, startData]
    · cases hee : e.endT with
      | none => exact absurd hee he
      | some x => simp [startFile, hr, startData, hl, hee]

/-- Witness for `c5_begin`: the error case on a store ending in an open
session, and the success case on an absent file. -/
theorem c5_begin_witness :
    read (some (write [trOpen])) = some [truncTracker trOpen] ∧
    startFile (some (write [trOpen])) tJan [] =
      some (Except.error "Last entry has no end. Please first correct this error",
        some (write [trOpen])) ∧
    read none = some [] ∧
    startFile none tJan [] =
      some (Except.ok (), some (write ([] ++ [Tracker.startNew tJan []]))) :=
  ⟨by decide,
    c5_begin.1 (some (write [trOpen])) [truncTracker trOpen] (truncTracker trOpen)
      tJan [] (by decide) rfl rfl,
    rfl,
    c5_begin.2 none [] tJan [] rfl (Or.inl rfl)⟩

/-- Claim C6: `stop` on a non-empty store whose last session is already
closed fails with the InvalidTransition error and leaves the stored file
unchanged — the returned file state is the input file state, nothing is
rewritten. -/
theorem c6_stop_closed (fs : FileSt) (l : List Tracker) (e : Tracker) (eo : ODT)
    (now : ODT) (obj : Field) (hr : read fs = some l) (hl : l.getLast? = some e)
    (he : e.endT = some eo) :
    stopFile fs now obj =
      some (Except.error "Last entry already finished. There was no work to track!", fs) := by
  simp [stopFile, hr, stopData, hl, he]

/-- Witness for `c6_stop_closed` on a one-session closed store. -/
theorem c6_stop_closed_witness :
    read (some (write [trClosed])) = some [truncTracker trClosed] ∧
    stopFile (some (write [trClosed])) tJan ['x'] =
      some (Except.error "Last entry already finished. There was no work to track!",
        some (write [trClosed])) :=
  ⟨by decide,
    c6_stop_closed (some (write [trClosed])) [truncTracker trClosed]
      (truncTracker trClosed) (truncODT tJan) tJan ['x'] (by decide) rfl rfl⟩

/-- Claim C10: a successful `stop` changes only the last session's end
and objective: the result is the old sequence with only its last element
replaced, the length is unchanged, every earlier position is unchanged,
and the last session's start is kept. -/
theorem c10_stop_frame (l : List Tracker) (e : Tracker) (now : ODT) (obj : Field)
    (hl : l.getLast? = some e) (he : e.endT = none) :
    stopData l now obj =
      Except.ok (l.dropLast ++ [{ e with endT := some now, objective := obj }]) ∧
    (l.dropLast ++ [{ e with endT := some now, objective := obj }]).length = l.length ∧
    (∀ i, i + 1 < l.length →
      (l.dropLast ++ [{ e with endT := some now, objective := obj }])[i]? = l[i]?) ∧
    ({ e with endT := some now, objective := obj } : Tracker).start = e.start := by
  have hdec := getLast?_decomp hl
  refine ⟨by simp [stopData, hl, he], ?_, ?_, rfl⟩
  · conv_rhs => rw [hdec]
    simp
  · intro i hi
    have hlen : i < l.length - 1 := by omega
    conv_rhs => rw [hdec]
    rw [List.getElem?_append, List.getElem?_append]
    simp [List.length_dropLast, hlen]

/-- Claim C7 helper: folding sessions of one common date onto a
one-entry accumulator only grows that entry. -/
lemma foldl_addTo_same (now : ODT) (d : Date) :
    ∀ (data : List Tracker) (a : Int), (∀ e ∈ data, e.start.date = d) →
      data.foldl (fun m entry => addTo m entry.start.date (sessionDur now entry)) [(d, a)] =
        [(d, a + (data.map (sessionDur now)).sum)] := by
  intro data
  induction data with
  | nil => intro a _; simp
  | cons e rest ih =>
    intro a h
    have hd : e.start.date = d := h e (by simp)
    rw [List.foldl_cons]
    have hstep : addTo [(d, a)] e.start.date (sessionDur now e) =
        [(d, a + sessionDur now e)] := by
      rw [hd]
      simp [addTo]
    rw [hstep, ih (a + sessionDur now e) (fun x hx => h x (by simp [hx]))]
    simp [add_assoc]

lemma mem_keys_addTo (m : List (Date × Int)) (k : Date) (v : Int) (x : Date) :
    x ∈ (addTo m k v).map Prod.fst ↔ x ∈ m.map Prod.fst ∨ x = k := by
  induction m with
  | nil => simp [addTo]
  | cons p rest ih =>
    rcases p with ⟨k', v'⟩
    by_cases hk : k' = k
    · subst hk
      simp [addTo]
      tauto
    · simp [addTo, hk, ih]
      tauto

lemma nodup_keys_addTo (m : List (Date × Int)) (k : Date) (v : Int)
    (h : (m.map Prod.fst).Nodup) : ((addTo m k v).map Prod.fst).Nodup := by
  induction m with
  | nil => simp [addTo]
  | cons p rest ih =>
    rcases p with ⟨k', v'⟩
    simp only [List.map_cons, List.nodup_cons] at h
    by_cases hk : k' = k
    · subst hk
      simpa [addTo, List.nodup_cons] using h
    · simp only [addTo, if_neg hk, List.map_cons, List.nodup_cons]
      refine ⟨fun contra => ?_, ih h.2⟩
      rcases (mem_keys_addTo rest k v k').mp contra with hmem | heq
      · exact h.1 hmem
      · exact hk heq

lemma compress_fold_keys (now : ODT) :
    ∀ (data : List Tracker) (m : List (Date × Int)), (m.map Prod.fst).Nodup →
      (((data.foldl (fun m entry => addTo m entry.start.date (sessionDur now entry)) m).map
          Prod.fst).Nodup ∧
        ∀ x : Date,
          x ∈ (data.foldl (fun m entry => addTo m entry.start.date (sessionDur now entry)) m).map
              Prod.fst ↔
            x ∈ m.map Prod.fst ∨ ∃ e ∈ data, e.start.date = x) := by
  intro data
  induction data with
  | nil => intro m hm; simp [hm]
  | cons e rest ih =>
    intro m hm
    obtain ⟨ih1, ih2⟩ := ih (addTo m e.start.date (sessionDur now e))
      (nodup_keys_addTo m e.start.date (sessionDur now e) hm)
    rw [List.foldl_cons]
    refine ⟨ih1, fun x => ?_⟩
    rw [ih2 x, mem_keys_addTo]
    simp only [List.mem_cons]
    constructor
    · rintro ((hx | rfl) | ⟨e', he', hx⟩)
      · exact Or.inl hx
      · exact Or.inr ⟨e, Or.inl rfl, rfl⟩
      · exact Or.inr ⟨e', Or.inr he', hx⟩
    · rintro (hx | ⟨e', (rfl | he'), hx⟩)
      · exact Or.inl (Or.inl hx)
      · exact Or.inl (Or.inr hx.symm)
      · exact Or.inr ⟨e', he', hx⟩

/-- Claim C7: `compress` on N ≥ 1 sessions sharing one start date yields
exactly one (date, duration) pair whose duration is the sum of each
session's `(end or now) - start`; in general its output has one pair per
distinct start date of the input (keys are distinct, and a date occurs
iff some session starts on it). -/
theorem c7_compress_by_day :
    (∀ (data : List Tracker) (now : ODT) (d : Date), data ≠ [] →
        (∀ e ∈ data, e.start.date = d) →
        compress data now = [(d, (data.map (sessionDur now)).sum)]) ∧
    (∀ (data : List Tracker) (now : ODT),
        ((compress data now).map Prod.fst).Nodup ∧
        ∀ d : Date, d ∈ (compress data now).map Prod.fst ↔
          ∃ e ∈ data, e.start.date = d) := by
  constructor
  · intro data now d hne hd
    cases data with
    | nil => exact absurd rfl hne
    | cons e rest =>
      have hd0 : e.start.date = d := hd e (by simp)
      unfold compress
      rw [List.foldl_cons]
      have h0 : addTo [] e.start.date (sessionDur now e) =
          [(d, sessionDur now e)] := by
        rw [hd0]
        rfl
      rw [h0, foldl_addTo_same now d rest (sessionDur now e)
        (fun x hx => hd x (by simp [hx]))]
      simp
  · intro data now
    obtain ⟨h1, h2⟩ := compress_fold_keys now data [] (by simp)
    refine ⟨h1, fun d => ?_⟩
    have := h2 d
    simpa [compress] using this

/-- Witness for `c7_compress_by_day`: two same-day sessions collapse to
one pair with the summed duration; key distinctness and membership on a
concrete store. -/
theorem c7_compress_by_day_witness :
    ([trOpen, trOpen] : List Tracker) ≠ [] ∧
    (∀ e ∈ [trOpen, trOpen], e.start.date = tDec.date) ∧
    compress [trOpen, trOpen] tJan =
      [(tDec.date, ([trOpen, trOpen].map (sessionDur tJan)).sum)] ∧
    ((compress [trOpen, trOpen] tJan).map Prod.fst).Nodup ∧
    (tDec.date ∈ (compress [trOpen, trOpen] tJan).map Prod.fst ↔
      ∃ e ∈ [trOpen, trOpen], e.start.date = tDec.date) :=
  ⟨by decide, by decide,
    c7_compress_by_day.1 [trOpen, trOpen] tJan tDec.date (by decide) (by decide),
    (c7_compress_by_day.2 [trOpen, trOpen] tJan).1,
    (c7_compress_by_day.2 [trOpen, trOpen] tJan).2 tDec.date⟩

/-- Claim C8: the store invariant (all sessions but the last are closed,
so at most one open session exists and only in last position) is
preserved by `start` and by `stop`, whether they succeed or fail. -/
theorem c8_invariant (l : List Tracker) (now : ODT) (obj : Field) (h : Inv l) :
    Inv (afterOp (startData l now obj) l) ∧ Inv (afterOp (stopData l now obj) l) := by
  constructor
  · cases hl : l.getLast? with
    | none =>
      have hnil : l = [] := List.getLast?_eq_none_iff.mp hl
      subst hnil
      simp [startData, afterOp, Inv]
    | some e =>
      cases he : e.endT with
      | none =>
        simpa [startData, hl, he, afterOp] using h
      | some x =>
        simp only [startData, hl, he, afterOp, Inv]
        intro t ht
        rw [List.dropLast_concat] at ht
        have hdec := getLast?_decomp hl
        rw [hdec] at ht
        rcases List.mem_append.mp ht with h1 | h2
        · exact h t h1
        · simp only [List.mem_singleton] at h2
          subst h2
          simp [he]
  · cases hl : l.getLast? with
    | none =>
      have hnil : l = [] := List.getLast?_eq_none_iff.mp hl
      subst hnil
      simp [stopData, afterOp, Inv]
    | some e =>
      cases he : e.endT with
      | some x =>
        simpa [stopData, hl, he, afterOp] using h
      | none =>
        simp only [stopData, hl, he, afterOp, Inv]
        intro t ht
        rw [List.dropLast_concat] at ht
        exact h t ht

/-- Witness for `c8_invariant` on a one-session closed store. -/
theorem c8_invariant_witness :
    Inv [trClosed] ∧
    Inv (afterOp (startData [trClosed] tJan []) [trClosed]) ∧
    Inv (afterOp (stopData [trClosed] tJan []) [trClosed]) :=
  ⟨by decide, (c8_invariant [trClosed] tJan [] (by decide)).1,
    (c8_invariant [trClosed] tJan [] (by decide)).2⟩

/-- Witness for `c10_stop_frame` on a one-session open store. -/
theorem c10_stop_frame_witness :
    stopData [trOpen] tJan ['x'] =
      Except.ok ([trOpen].dropLast ++ [{ trOpen with endT := some tJan, objective := ['x'] }]) ∧
    ([trOpen].dropLast ++ [{ trOpen with endT := some tJan, objective := ['x'] }]).length =
      [trOpen].length ∧
    (∀ i, i + 1 < [trOpen].length →
      ([trOpen].dropLast ++ [{ trOpen with endT := some tJan, objective := ['x'] }])[i]? =
        [trOpen][i]?) ∧
    ({ trOpen with endT := some tJan, objective := ['x'] } : Tracker).start = trOpen.start :=
  c10_stop_frame [trOpen] trOpen tJan ['x'] rfl rfl

end TrackWork
